import Mathlib

/-!
Shallow embedding of the polymarket-bot trading core (Rust) in Lean 4.

Floating-point (`f64`) quantities are modelled as exact rationals `ℚ`;
all the constants appearing in the code (0.02, 0.05, 0.5, 0.002, 0.90,
0.10, 0.95, 5.0, 1.0, 0.30) are exactly representable, and the source's
arithmetic on them involves no rounding concerns relevant to the claims.
Timestamps are carried as opaque strings (the code stores RFC3339 text).
-/

namespace PolymarketBot

/-- Side enum from src/domain/mod.rs. -/
inductive Side where
  | Buy
  | Sell
deriving DecidableEq, Repr

/-- OrderType enum from src/domain/mod.rs. -/
inductive OrderType where
  | GTC
  | GTD
  | FOK
deriving DecidableEq, Repr

/-- OrderStatus enum from src/domain/mod.rs. -/
inductive OrderStatus where
  | Pending
  | Open
  | Filled
  | Cancelled
  | Failed
deriving DecidableEq, Repr

/-- Order record from src/domain/mod.rs (created_at kept as RFC3339 text). -/
structure Order where
  id : String
  market_id : String
  side : Side
  token_id : String
  price : ℚ
  size : ℚ
  order_type : OrderType
  status : OrderStatus
  created_at : String
deriving DecidableEq, Repr

/-- Position record from src/domain/mod.rs. -/
structure Position where
  market_id : String
  token_id : String
  side : Side
  size : ℚ
  avg_price : ℚ
  current_price : ℚ
  pnl : ℚ
deriving DecidableEq, Repr

/-- Trade record from src/domain/mod.rs (timestamp kept as RFC3339 text). -/
structure Trade where
  id : String
  order_id : String
  market_id : String
  side : Side
  price : ℚ
  size : ℚ
  fee : ℚ
  timestamp : String
deriving DecidableEq, Repr

/-- Signal record from src/domain/mod.rs. -/
structure Signal where
  strategy : String
  market_id : String
  side : Side
  confidence : ℚ
  price : ℚ
  size : ℚ
deriving DecidableEq, Repr

/-- RiskConfig from src/config.rs. -/
structure RiskConfig where
  max_position_pct : ℚ
  max_drawdown_pct : ℚ
  min_bankroll : ℚ
  starting_bankroll : ℚ
  max_exposure : ℚ
deriving DecidableEq, Repr

/-- Mutable state owned by the RiskManager (src/engine/risk.rs):
the peak-bankroll watermark and the trading_active flag. -/
structure RiskState where
  peak_bankroll : ℚ
  trading_active : Bool
deriving DecidableEq, Repr

/-- RiskManager::new: peak starts at starting_bankroll, trading_active true. -/
def riskInit (config : RiskConfig) : RiskState :=
  { peak_bankroll := config.starting_bankroll, trading_active := true }

/-- RiskManager::update_bankroll (src/engine/risk.rs lines 28-59).
Raises the peak watermark to the current bankroll if it exceeds it, then
trips the kill switch (and returns false) on min-bankroll breach or on
drawdown breach; otherwise returns true leaving trading_active untouched. -/
def update_bankroll (config : RiskConfig) (st : RiskState)
    (current_bankroll : ℚ) : RiskState × Bool :=
  let peak := if current_bankroll > st.peak_bankroll then current_bankroll
              else st.peak_bankroll
  if current_bankroll < config.min_bankroll then
    ({ peak_bankroll := peak, trading_active := false }, false)
  else
    let drawdown := (peak - current_bankroll) / peak
    if drawdown > config.max_drawdown_pct then
      ({ peak_bankroll := peak, trading_active := false }, false)
    else
      ({ peak_bankroll := peak, trading_active := st.trading_active }, true)

/-- RiskManager::check_signal (src/engine/risk.rs lines 62-96). The Rust
returns Result<bool> but never errs; modelled as Bool. Does not mutate state. -/
def check_signal (config : RiskConfig) (st : RiskState) (signal : Signal)
    (current_bankroll total_exposure : ℚ) : Bool :=
  if !st.trading_active then false
  else if current_bankroll < config.min_bankroll then false
  else if signal.size * signal.price > current_bankroll * config.max_position_pct then false
  else if total_exposure + signal.size * signal.price > config.max_exposure then false
  else true

/-- RiskManager::kill: unconditionally clears trading_active. -/
def kill (st : RiskState) : RiskState :=
  { st with trading_active := false }

/-- RiskManager::resume: unconditionally sets trading_active. -/
def resume (st : RiskState) : RiskState :=
  { st with trading_active := true }

/-- RiskManager::is_active. -/
def is_active (st : RiskState) : Bool :=
  st.trading_active

/-- The non-resume operations on the risk manager, for the stickiness claim:
update_bankroll, check_signal, kill, is_active. -/
inductive RiskOp where
  | update (b : ℚ)
  | check (signal : Signal) (bankroll exposure : ℚ)
  | killOp
  | isActiveOp

/-- State transition of one risk-manager call (check_signal and is_active
read but do not mutate). -/
def applyRiskOp (config : RiskConfig) (st : RiskState) : RiskOp → RiskState
  | RiskOp.update b => (update_bankroll config st b).1
  | RiskOp.check _ _ _ => st
  | RiskOp.killOp => kill st
  | RiskOp.isActiveOp => st

/-- Running a sequence of non-resume risk-manager calls. -/
def runRiskOps (config : RiskConfig) (st : RiskState) (ops : List RiskOp) : RiskState :=
  ops.foldl (applyRiskOp config) st

/-- C2: check_signal returns true iff trading is active, bankroll meets the
minimum, the order notional fits inside max_position_pct of bankroll, and
the post-trade exposure stays within max_exposure. -/
theorem check_signal_iff (config : RiskConfig) (st : RiskState) (signal : Signal)
    (bankroll exposure : ℚ) :
    check_signal config st signal bankroll exposure = true ↔
      (st.trading_active = true ∧
       config.min_bankroll ≤ bankroll ∧
       signal.size * signal.price ≤ config.max_position_pct * bankroll ∧
       exposure + signal.size * signal.price ≤ config.max_exposure) := by
  constructor
  · intro h
    unfold check_signal at h
    split_ifs at h with h1 h2 h3 h4
    all_goals simp_all [not_lt, mul_comm bankroll config.max_position_pct]
  · rintro ⟨h1, h2, h3, h4⟩
    have h3x : ¬ signal.size * signal.price > bankroll * config.max_position_pct :=
      not_lt.mpr (mul_comm config.max_position_pct bankroll ▸ h3)
    unfold check_signal
    simp [h1, not_lt.mpr h2, h3x, not_lt.mpr h4]

/-- C3: update_bankroll first raises the peak to max(peak, b) — hence the
watermark is non-decreasing — and then returns false while clearing
trading_active exactly when b is below min_bankroll or the drawdown measured
against the updated peak exceeds max_drawdown_pct; on the true branch
trading_active is left unchanged. -/
theorem update_bankroll_spec (config : RiskConfig) (st : RiskState) (b : ℚ) :
    ((update_bankroll config st b).1.peak_bankroll = max st.peak_bankroll b ∧
      st.peak_bankroll ≤ (update_bankroll config st b).1.peak_bankroll) ∧
    (((update_bankroll config st b).2 = false) ↔
      (b < config.min_bankroll ∨
       (max st.peak_bankroll b - b) / max st.peak_bankroll b > config.max_drawdown_pct)) ∧
    ((update_bankroll config st b).2 = false →
      (update_bankroll config st b).1.trading_active = false) ∧
    ((update_bankroll config st b).2 = true →
      (update_bankroll config st b).1.trading_active = st.trading_active) := by
  unfold update_bankroll
  have hmax : (if b > st.peak_bankroll then b else st.peak_bankroll)
      = max st.peak_bankroll b := by
    rcases le_or_lt b st.peak_bankroll with h | h
    · simp [not_lt.mpr h, max_eq_left h]
    · simp [h, max_eq_right h.le]
  rw [hmax]
  by_cases h1 : b < config.min_bankroll
  · simp [h1]
  · by_cases h2 :
      (max st.peak_bankroll b - b) / max st.peak_bankroll b > config.max_drawdown_pct
    · simp [h1, h2]
    · simp [h1, h2]

/-- Auxiliary monotonicity fact: update_bankroll never re-enables trading. -/
theorem update_bankroll_never_enables (config : RiskConfig) (st : RiskState) (b : ℚ)
    (h : st.trading_active = false) :
    (update_bankroll config st b).1.trading_active = false := by
  simp only [update_bankroll]
  split_ifs <;> simp [h]

/-- C4: the kill switch is sticky — once trading_active is false, no sequence
of update_bankroll, check_signal, kill or is_active calls re-enables it; only
resume sets it true, and resume leaves the peak watermark unchanged. -/
theorem trading_active_sticky (config : RiskConfig) (st : RiskState)
    (ops : List RiskOp) (h : st.trading_active = false) :
    (runRiskOps config st ops).trading_active = false ∧
    (resume st).trading_active = true ∧
    (resume st).peak_bankroll = st.peak_bankroll := by
  refine ⟨?_, rfl, rfl⟩
  induction ops generalizing st with
  | nil => exact h
  | cons op rest ih =>
    refine ih (applyRiskOp config st op) ?_
    cases op with
    | update b => exact update_bankroll_never_enables config st b h
    | check s bk e => exact h
    | killOp => rfl
    | isActiveOp => exact h

/-- Witness for C4 at a concrete state and operation sequence. -/
theorem trading_active_sticky_witness :
    (runRiskOps ⟨5/100, 30/100, 350, 500, 100⟩
        ⟨600, false⟩ [RiskOp.update 1000, RiskOp.killOp, RiskOp.isActiveOp]).trading_active
      = false ∧
    (resume ⟨600, false⟩).trading_active = true ∧
    (resume ⟨600, false⟩).peak_bankroll = 600 := by
  exact trading_active_sticky ⟨5/100, 30/100, 350, 500, 100⟩ ⟨600, false⟩
    [RiskOp.update 1000, RiskOp.killOp, RiskOp.isActiveOp] rfl

/-- StrategyContext from src/strategy/mod.rs; the two HashMaps relevant to the
claims are modelled as partial lookup functions (token_id → price and
spot symbol → price). -/
structure StrategyContext where
  bankroll : ℚ
  positions : List Position
  prices : String → Option ℚ
  binance_prices : String → Option ℚ

/-- LatencyArbStrategy configuration from src/strategy/latency_arb.rs. -/
structure LatencyArbStrategy where
  enabled : Bool
  market_id : String
  yes_token_id : String
  no_token_id : String
  binance_symbol : String
  threshold_price : ℚ
  min_edge_pct : ℚ
  max_position_pct : ℚ

/-- LatencyArbStrategy::kelly_size (src/strategy/latency_arb.rs lines 46-60):
degenerate price or non-positive confidence give 0; otherwise half-Kelly
capped at max_position_pct of bankroll and floored at 0. -/
def LatencyArbStrategy.kelly_size (s : LatencyArbStrategy)
    (confidence price bankroll : ℚ) : ℚ :=
  if price ≤ 0 ∨ price ≥ 1 ∨ confidence ≤ 0 then 0
  else
    let b := 1 / price - 1
    let p := confidence
    let q := 1 - p
    let kelly := (b * p - q) / b
    let kelly := max kelly 0
    let half_kelly := kelly * 0.5
    let max_size := bankroll * s.max_position_pct
    let size := min (half_kelly * bankroll) max_size
    max size 0

/-- LatencyArbStrategy::evaluate (src/strategy/latency_arb.rs lines 73-135). -/
def LatencyArbStrategy.evaluate (s : LatencyArbStrategy)
    (ctx : StrategyContext) : List Signal :=
  match ctx.binance_prices s.binance_symbol with
  | none => []
  | some spot_price =>
    match ctx.prices s.yes_token_id with
    | none => []
    | some poly_yes_price =>
      let has_position := ctx.positions.any
        (fun p => p.market_id = s.market_id ∧ p.size > 0)
      if has_position then []
      else
        let edge_above := (spot_price - s.threshold_price) / s.threshold_price
        let edge_below := (s.threshold_price - spot_price) / s.threshold_price
        if edge_above > s.min_edge_pct ∧ poly_yes_price < 0.90 then
          let confidence := min (0.5 + edge_above * 5) 0.95
          let size := s.kelly_size confidence poly_yes_price ctx.bankroll
          if size > 1 then
            [{ strategy := "latency_arb", market_id := s.market_id,
               side := Side.Buy, confidence := confidence,
               price := poly_yes_price, size := size }]
          else []
        else if edge_below > s.min_edge_pct ∧ poly_yes_price > 0.10 then
          let poly_no_price := 1 - poly_yes_price
          let confidence := min (0.5 + edge_below * 5) 0.95
          let size := s.kelly_size confidence poly_no_price ctx.bankroll
          if size > 1 then
            [{ strategy := "latency_arb", market_id := s.market_id,
               side := Side.Sell, confidence := confidence,
               price := poly_yes_price, size := size }]
          else []
        else []

/-- C6: for a well-formed configuration (non-negative max_position_pct), any
confidence in (0,1], price in (0,1) and non-negative bankroll give a Kelly
size bounded by min(max_position_pct·bankroll, 0.5·bankroll/price); and any
price outside (0,1) or non-positive confidence gives size 0. -/
theorem kelly_size_bounds (s : LatencyArbStrategy) (c p bankroll : ℚ)
    (hM : 0 ≤ s.max_position_pct) (hB : 0 ≤ bankroll) :
    ((0 < c ∧ c ≤ 1 ∧ 0 < p ∧ p < 1) →
      s.kelly_size c p bankroll ≤
        min (s.max_position_pct * bankroll) (0.5 * bankroll / p)) ∧
    ((¬ (0 < p ∧ p < 1) ∨ c ≤ 0) → s.kelly_size c p bankroll = 0) := by
  constructor
  · rintro ⟨hc0, hc1, hp0, hp1⟩
    unfold LatencyArbStrategy.kelly_size
    rw [if_neg (by push_neg; exact ⟨hp0, hp1, hc0⟩)]
    dsimp only
    have h1p : (1:ℚ) < 1 / p := one_lt_one_div hp0 hp1
    have hb : (0:ℚ) < 1 / p - 1 := by linarith
    set K := max (((1 / p - 1) * c - (1 - c)) / (1 / p - 1)) 0 with hKdef
    have hK0 : 0 ≤ K := le_max_right _ _
    have hKc : K ≤ c := by
      apply max_le _ hc0.le
      rw [div_le_iff₀ hb]
      nlinarith
    have hA0 : (0:ℚ) ≤ K * 0.5 * bankroll := by positivity
    have hC0 : (0:ℚ) ≤ bankroll * s.max_position_pct := mul_nonneg hB hM
    rw [max_eq_left (le_min hA0 hC0)]
    apply le_min
    · exact (min_le_right _ _).trans_eq (mul_comm _ _)
    · refine (min_le_left _ _).trans ?_
      have hK1p : K ≤ 1 / p := hKc.trans (hc1.trans h1p.le)
      have hstep : K * 0.5 * bankroll ≤ 1 / p * 0.5 * bankroll := by
        apply mul_le_mul_of_nonneg_right _ hB
        exact mul_le_mul_of_nonneg_right hK1p (by norm_num)
      refine hstep.trans_eq ?_
      simp only [one_div, div_eq_mul_inv]
      ring
  · intro h
    unfold LatencyArbStrategy.kelly_size
    rw [if_pos]
    rcases h with h | h
    · rcases not_and_or.mp h with h | h
      · exact Or.inl (not_lt.mp h)
      · exact Or.inr (Or.inl (not_lt.mp h))
    · exact Or.inr (Or.inr h)

/-- Latency-arb strategy instance as configured in scenario A of the spec
(threshold 100000 with the default edge and position limits from
LatencyArbStrategy::new). -/
def scenarioStrategy : LatencyArbStrategy :=
  { enabled := true
    market_id := "btc-above-100k"
    yes_token_id := "yes-tok"
    no_token_id := "no-tok"
    binance_symbol := "BTCUSDT"
    threshold_price := 100000
    min_edge_pct := 0.02
    max_position_pct := 0.05 }

/-- Witness for C6 at confidence 3/4, price 1/2, bankroll 500 on the
scenario strategy. -/
theorem kelly_size_bounds_witness :
    ((0:ℚ) ≤ scenarioStrategy.max_position_pct ∧ (0:ℚ) ≤ (500:ℚ)) ∧
    ((((0:ℚ) < 3/4 ∧ (3/4:ℚ) ≤ 1 ∧ (0:ℚ) < 1/2 ∧ (1/2:ℚ) < 1) →
        scenarioStrategy.kelly_size (3/4) (1/2) 500 ≤
          min (scenarioStrategy.max_position_pct * 500) (0.5 * 500 / (1/2))) ∧
      ((¬ ((0:ℚ) < 1/2 ∧ (1/2:ℚ) < 1) ∨ (3/4:ℚ) ≤ 0) →
        scenarioStrategy.kelly_size (3/4) (1/2) 500 = 0)) :=
  ⟨⟨by norm_num [scenarioStrategy], by norm_num⟩,
    kelly_size_bounds scenarioStrategy (3/4) (1/2) 500
      (by norm_num [scenarioStrategy]) (by norm_num)⟩

/-- Venue response shape of PolymarketClient::post_order. -/
structure PostOrderResponse where
  success : Bool
  order_id : Option String
  error_msg : Option String
deriving DecidableEq, Repr

/-- Outcome of the post_order call as seen by the order manager: either a
venue response or a transport error. -/
inductive PostOrderResult where
  | ok (resp : PostOrderResponse)
  | err
deriving DecidableEq, Repr

/-- Persistent store contents relevant to the order manager (src/adapters/database.rs):
the orders, trades, and positions tables. -/
structure DB where
  orders : List Order
  trades : List Trade
  positions : List Position
deriving DecidableEq, Repr

/-- Database::insert_order: appends a row. -/
def DB.insert_order (db : DB) (o : Order) : DB :=
  { db with orders := db.orders ++ [o] }

/-- Database::insert_trade: appends a row. -/
def DB.insert_trade (db : DB) (t : Trade) : DB :=
  { db with trades := db.trades ++ [t] }

/-- Row update used by Database::update_order_status. -/
def setStatusIfId (oid : String) (st : OrderStatus) (o : Order) : Order :=
  if o.id = oid then { o with status := st } else o

/-- Database::update_order_status: UPDATE orders SET status WHERE id = oid. -/
def DB.update_order_status (db : DB) (oid : String) (st : OrderStatus) : DB :=
  { db with orders := db.orders.map (setStatusIfId oid st) }

/-- Database::get_positions: SELECT ... WHERE size > 0. -/
def DB.get_positions (db : DB) : List Position :=
  db.positions.filter (fun p => p.size > 0)

/-- Database::get_open_orders: SELECT ... WHERE status IN (Pending, Open). -/
def DB.get_open_orders (db : DB) : List Order :=
  db.orders.filter (fun o => o.status = OrderStatus.Pending ∨ o.status = OrderStatus.Open)

/-- OrderManager::handle_signal (src/engine/order_manager.rs lines 61-155).
Explicit inputs replace the ambient effects: the bankroll read from the shared
cell, the freshly minted UUIDs and timestamps, and the venue's response to
post_order. Exposure is Σ size·avg_price over stored positions with size > 0;
a failed risk check drops the signal; otherwise the order is inserted Pending
(the source uses market_id as token_id, a recorded TODO), then moved to Open
with a 20 bps fee-estimated trade on success, or to Failed on venue rejection
or transport error. -/
def handle_signal (config : RiskConfig) (rs : RiskState) (db : DB)
    (current_bankroll : ℚ) (signal : Signal)
    (order_id created_at trade_id trade_ts : String)
    (venue : PostOrderResult) : DB :=
  let total_exposure := (db.get_positions.map (fun p => p.size * p.avg_price)).sum
  if check_signal config rs signal current_bankroll total_exposure = false then db
  else
    let token_id := signal.market_id
    let order : Order :=
      { id := order_id, market_id := signal.market_id, side := signal.side,
        token_id := token_id, price := signal.price, size := signal.size,
        order_type := OrderType.GTC, status := OrderStatus.Pending,
        created_at := created_at }
    let db1 := db.insert_order order
    match venue with
    | PostOrderResult.ok resp =>
      if resp.success then
        let db2 := db1.update_order_status order.id OrderStatus.Open
        let trade : Trade :=
          { id := trade_id, order_id := order.id, market_id := order.market_id,
            side := order.side, price := order.price, size := order.size,
            fee := order.size * order.price * 0.002, timestamp := trade_ts }
        db2.insert_trade trade
      else
        db1.update_order_status order.id OrderStatus.Failed
    | PostOrderResult.err =>
      db1.update_order_status order.id OrderStatus.Failed

/-- RiskConfig::default from src/config.rs. -/
def defaultRiskConfig : RiskConfig :=
  { max_position_pct := 0.05, max_drawdown_pct := 0.30, min_bankroll := 350,
    starting_bankroll := 500, max_exposure := 100 }

/-- Strategy context of scenario A: bankroll 500, spot BTCUSDT at 105000,
YES token priced 0.50, no positions. -/
def scenarioCtx : StrategyContext :=
  { bankroll := 500
    positions := []
    prices := fun t => if t = "yes-tok" then some 0.50 else none
    binance_prices := fun sym => if sym = "BTCUSDT" then some 105000 else none }

/-- The single signal scenario A expects. -/
def scenarioSignal : Signal :=
  { strategy := "latency_arb", market_id := "btc-above-100k", side := Side.Buy,
    confidence := 0.75, price := 0.50, size := 25 }

/-- C1: in scenario A the latency-arb strategy emits exactly one Buy signal
with price 0.50, confidence 0.75 and size 25, and on venue success the order
manager records a trade for it with fee 0.002·0.50·25 = 0.025 (the order
having moved Pending → Open). -/
theorem scenarioA_signal_and_fee :
    scenarioStrategy.evaluate scenarioCtx = [scenarioSignal] ∧
    (handle_signal defaultRiskConfig (riskInit defaultRiskConfig)
        ⟨[], [], []⟩ 500 scenarioSignal "oid-1" "ts-0" "tid-1" "ts-1"
        (PostOrderResult.ok ⟨true, some "remote-1", none⟩)).trades =
      [{ id := "tid-1", order_id := "oid-1", market_id := "btc-above-100k",
         side := Side.Buy, price := 0.50, size := 25, fee := 0.025,
         timestamp := "ts-1" }] ∧
    (handle_signal defaultRiskConfig (riskInit defaultRiskConfig)
        ⟨[], [], []⟩ 500 scenarioSignal "oid-1" "ts-0" "tid-1" "ts-1"
        (PostOrderResult.ok ⟨true, some "remote-1", none⟩)).orders =
      [{ id := "oid-1", market_id := "btc-above-100k", side := Side.Buy,
         token_id := "btc-above-100k", price := 0.50, size := 25,
         order_type := OrderType.GTC, status := OrderStatus.Open,
         created_at := "ts-0" }] := by
  refine ⟨?_, ?_, ?_⟩
  · norm_num [LatencyArbStrategy.evaluate, scenarioStrategy, scenarioCtx,
      LatencyArbStrategy.kelly_size, scenarioSignal, max_def, min_def]
  · norm_num [handle_signal, check_signal, defaultRiskConfig, riskInit,
      scenarioSignal, DB.get_positions, DB.insert_order, DB.insert_trade,
      DB.update_order_status, setStatusIfId]
  · norm_num [handle_signal, check_signal, defaultRiskConfig, riskInit,
      scenarioSignal, DB.get_positions, DB.insert_order, DB.insert_trade,
      DB.update_order_status, setStatusIfId]

/-- Helper: a list with no row carrying order id oid filters (by that id) to
nothing even after a status update pass. -/
theorem filter_setStatus_fresh (orders : List Order) (oid : String)
    (st : OrderStatus) (h : ∀ o ∈ orders, o.id ≠ oid) :
    (orders.map (setStatusIfId oid st)).filter (fun o => o.id == oid) = [] := by
  induction orders with
  | nil => rfl
  | cons o rest ih =>
    have ho : o.id ≠ oid := h o (List.mem_cons_self o rest)
    have hrest := ih (fun x hx => h x (List.mem_cons_of_mem _ hx))
    simp [setStatusIfId, ho, hrest]

/-- Helper: a trades list with no row referencing order id oid filters to
nothing. -/
theorem filter_trades_fresh (trades : List Trade) (oid : String)
    (h : ∀ t ∈ trades, t.order_id ≠ oid) :
    trades.filter (fun t => t.order_id == oid) = [] := by
  induction trades with
  | nil => rfl
  | cons t rest ih =>
    have ht : t.order_id ≠ oid := h t (List.mem_cons_self t rest)
    have hrest := ih (fun x hx => h x (List.mem_cons_of_mem _ hx))
    simp [ht, hrest]

/-- Helper: inserting a fresh order and then updating its status leaves
exactly one row with its id, carrying the new status. -/
theorem insert_then_update_filter (db : DB) (order : Order) (st : OrderStatus)
    (hfresh : ∀ o ∈ db.orders, o.id ≠ order.id) :
    ((db.insert_order order).update_order_status order.id st).orders.filter
      (fun o => o.id == order.id) = [{ order with status := st }] := by
  simp only [DB.insert_order, DB.update_order_status, List.map_append,
    List.filter_append]
  rw [filter_setStatus_fresh db.orders order.id st hfresh]
  simp [setStatusIfId]

/-- C5: when a signal passes the risk check and post_order reports
success=false or a transport error, handle_signal leaves exactly one order
row with the minted id — carrying the signal's fields and status Failed —
and no trade row referencing that id. -/
theorem handle_signal_failure (config : RiskConfig) (rs : RiskState) (db : DB)
    (bankroll : ℚ) (signal : Signal) (oid ca tid ts : String)
    (venue : PostOrderResult)
    (hpass : check_signal config rs signal bankroll
      ((db.get_positions.map (fun p => p.size * p.avg_price)).sum) = true)
    (hfail : venue = PostOrderResult.err ∨
      ∃ resp, venue = PostOrderResult.ok resp ∧ resp.success = false)
    (hfresh : ∀ o ∈ db.orders, o.id ≠ oid)
    (hfreshT : ∀ t ∈ db.trades, t.order_id ≠ oid) :
    ((handle_signal config rs db bankroll signal oid ca tid ts venue).orders.filter
        (fun o => o.id == oid)) =
      [{ id := oid, market_id := signal.market_id, side := signal.side,
         token_id := signal.market_id, price := signal.price, size := signal.size,
         order_type := OrderType.GTC, status := OrderStatus.Failed,
         created_at := ca }] ∧
    ((handle_signal config rs db bankroll signal oid ca tid ts venue).trades.filter
        (fun t => t.order_id == oid)) = [] := by
  have hone := insert_then_update_filter db
      { id := oid, market_id := signal.market_id, side := signal.side,
        token_id := signal.market_id, price := signal.price, size := signal.size,
        order_type := OrderType.GTC, status := OrderStatus.Pending,
        created_at := ca } OrderStatus.Failed hfresh
  unfold handle_signal
  rw [if_neg (by simp [hpass])]
  rcases hfail with hv | ⟨resp, hv, hs⟩ <;> subst hv <;> dsimp only
  · exact ⟨hone, filter_trades_fresh db.trades oid hfreshT⟩
  · rw [hs]
    simp only [Bool.false_eq_true, if_false]
    exact ⟨hone, filter_trades_fresh db.trades oid hfreshT⟩

/-- Witness for C5: scenario F — the scenario-A signal passes risk on an empty
store but the venue answers success=false ("insufficient funds"); the only row
with the minted id is the Failed order and no trade references it. -/
theorem handle_signal_failure_witness :
    check_signal defaultRiskConfig (riskInit defaultRiskConfig) scenarioSignal 500
      ((((DB.mk [] [] []).get_positions).map (fun p => p.size * p.avg_price)).sum)
      = true ∧
    ((handle_signal defaultRiskConfig (riskInit defaultRiskConfig) ⟨[], [], []⟩ 500
        scenarioSignal "oid-2" "ts-0" "tid-2" "ts-1"
        (PostOrderResult.ok ⟨false, none, some "insufficient funds"⟩)).orders.filter
        (fun o => o.id == "oid-2")) =
      [{ id := "oid-2", market_id := scenarioSignal.market_id,
         side := scenarioSignal.side, token_id := scenarioSignal.market_id,
         price := scenarioSignal.price, size := scenarioSignal.size,
         order_type := OrderType.GTC, status := OrderStatus.Failed,
         created_at := "ts-0" }] ∧
    ((handle_signal defaultRiskConfig (riskInit defaultRiskConfig) ⟨[], [], []⟩ 500
        scenarioSignal "oid-2" "ts-0" "tid-2" "ts-1"
        (PostOrderResult.ok ⟨false, none, some "insufficient funds"⟩)).trades.filter
        (fun t => t.order_id == "oid-2")) = [] := by
  have hp : check_signal defaultRiskConfig (riskInit defaultRiskConfig)
      scenarioSignal 500
      ((((DB.mk [] [] []).get_positions).map (fun p => p.size * p.avg_price)).sum)
      = true := by
    norm_num [check_signal, defaultRiskConfig, riskInit, scenarioSignal,
      DB.get_positions]
  have hmain := handle_signal_failure defaultRiskConfig
    (riskInit defaultRiskConfig) ⟨[], [], []⟩ 500 scenarioSignal
    "oid-2" "ts-0" "tid-2" "ts-1"
    (PostOrderResult.ok ⟨false, none, some "insufficient funds"⟩)
    hp
    (Or.inr ⟨⟨false, none, some "insufficient funds"⟩, rfl, rfl⟩)
    (fun o ho => absurd ho (List.not_mem_nil o))
    (fun t ht => absurd ht (List.not_mem_nil t))
  exact ⟨hp, hmain.1, hmain.2⟩

/-- IntraArbStrategy configuration from src/strategy/intra_arb.rs. -/
structure IntraArbStrategy where
  enabled : Bool
  markets : List (String × List String)
  min_margin : ℚ
  max_position_pct : ℚ

/-- Body of the per-market loop of IntraArbStrategy::evaluate
(src/strategy/intra_arb.rs lines 39-79): collect the known outcome prices,
skip the market unless all are known, and when the price sum leaves margin
below 1 emit one Buy signal per outcome. -/
def IntraArbStrategy.evalMarket (s : IntraArbStrategy) (ctx : StrategyContext)
    (market_id : String) (token_ids : List String) : List Signal :=
  let prices := token_ids.filterMap
    (fun tid => (ctx.prices tid).map (fun p => (tid, p)))
  if prices.length ≠ token_ids.length then []
  else
    let total := (prices.map (fun x => x.2)).sum
    if total < 1 - s.min_margin then
      let profit_per_dollar := 1 - total
      let max_size := ctx.bankroll * s.max_position_pct
      let size := min max_size (ctx.bankroll * 0.10)
      prices.map (fun x =>
        { strategy := "intra_arb", market_id := market_id, side := Side.Buy,
          confidence := min profit_per_dollar 1, price := x.2,
          size := size * x.2 })
    else []

/-- IntraArbStrategy::evaluate: the per-market loop over the configured
markets, signals accumulated in order. -/
def IntraArbStrategy.evaluate (s : IntraArbStrategy)
    (ctx : StrategyContext) : List Signal :=
  s.markets.flatMap (fun m => s.evalMarket ctx m.1 m.2)

/-- Modelled from the claim wording, for the refinement proof of C7: when
prices are known for all of the market's outcome tokens and their sum S is
below 1 − min_margin, one Buy signal per outcome with price that outcome's
price, size min(max_position_pct·bankroll, 0.10·bankroll)·price and
confidence min(1, 1−S); otherwise no signals. -/
def intraMarketSignalsSpec (s : IntraArbStrategy) (ctx : StrategyContext)
    (market_id : String) (token_ids : List String) : List Signal :=
  if ∀ tid ∈ token_ids, (ctx.prices tid).isSome then
    let total := (token_ids.filterMap ctx.prices).sum
    if total < 1 - s.min_margin then
      token_ids.filterMap (fun tid => (ctx.prices tid).map (fun p =>
        { strategy := "intra_arb", market_id := market_id, side := Side.Buy,
          confidence := min 1 (1 - total), price := p,
          size := min (s.max_position_pct * ctx.bankroll)
            (0.10 * ctx.bankroll) * p }))
    else []
  else []

/-- Helper: the collected (token, price) pairs have full length exactly when
every token has a known price. -/
theorem length_filterMap_pair (u : String → Option ℚ) (l : List String) :
    ((l.filterMap (fun tid => (u tid).map (fun p => (tid, p)))).length
        = l.length) ↔
      ∀ tid ∈ l, (u tid).isSome := by
  induction l with
  | nil => simp
  | cons a rest ih =>
    cases h : u a with
    | none =>
      simp only [List.filterMap_cons, h, Option.map_none', List.length_cons,
        List.mem_cons]
      constructor
      · intro hlen
        exfalso
        have hle := List.length_filterMap_le
          (fun tid => (u tid).map (fun p => (tid, p))) rest
        omega
      · intro hallx
        have ha := hallx a (Or.inl rfl)
        simp [h] at ha
    | some p =>
      simp only [List.filterMap_cons, h, Option.map_some', List.length_cons,
        Nat.add_right_cancel_iff, List.mem_cons, ih]
      constructor
      · intro hrest
        exact fun tid htid => htid.elim (fun he => he ▸ (by simp [h]))
          (fun hm => hrest tid hm)
      · intro hall
        exact fun tid htid => hall tid (Or.inr htid)

/-- Helper: projecting the price out of the collected pairs recovers the
plain filterMap of prices. -/
theorem filterMap_pair_snd (u : String → Option ℚ) (l : List String) :
    ((l.filterMap (fun tid => (u tid).map (fun p => (tid, p)))).map
        (fun x => x.2)) = l.filterMap u := by
  induction l with
  | nil => rfl
  | cons a rest ih =>
    cases h : u a <;> simp [List.filterMap_cons, h, ih]

/-- Helper: building signals from the collected pairs is the same as building
them from the prices directly (the token id is not used in the signal). -/
theorem filterMap_pair_signals (u : String → Option ℚ) (l : List String)
    (mid : String) (c S : ℚ) :
    ((l.filterMap (fun tid => (u tid).map (fun p => (tid, p)))).map
        (fun x =>
          { strategy := "intra_arb", market_id := mid, side := Side.Buy,
            confidence := c, price := x.2, size := S * x.2 : Signal })) =
      l.filterMap (fun tid => (u tid).map (fun p =>
        { strategy := "intra_arb", market_id := mid, side := Side.Buy,
          confidence := c, price := p, size := S * p : Signal })) := by
  induction l with
  | nil => rfl
  | cons a rest ih =>
    cases h : u a <;> simp [List.filterMap_cons, h, ih]

/-- Helper: one market of the source evaluate equals the claim-worded form. -/
theorem evalMarket_eq_spec (s : IntraArbStrategy) (ctx : StrategyContext)
    (mid : String) (tids : List String) :
    s.evalMarket ctx mid tids = intraMarketSignalsSpec s ctx mid tids := by
  unfold IntraArbStrategy.evalMarket intraMarketSignalsSpec
  dsimp only
  by_cases hall : ∀ tid ∈ tids, (ctx.prices tid).isSome
  · rw [if_neg (not_ne_iff.mpr ((length_filterMap_pair ctx.prices tids).mpr hall)),
      if_pos hall]
    simp only [filterMap_pair_snd, filterMap_pair_signals]
    by_cases hlt : (tids.filterMap ctx.prices).sum < 1 - s.min_margin
    · rw [if_pos hlt, if_pos hlt]
      simp [min_comm, mul_comm]
    · rw [if_neg hlt, if_neg hlt]
  · rw [if_pos (fun heq => hall ((length_filterMap_pair ctx.prices tids).mp heq)),
      if_neg hall]

/-- C7: for every configured market, the intra-market arbitrage evaluate
emits — in configuration order — exactly the claim-described signals: one Buy
per outcome token when all outcome prices are known and their sum S is below
1 − min_margin (price that outcome's price, size
min(max_position_pct·bankroll, 0.10·bankroll)·price, confidence min(1, 1−S)),
and none for a market with a missing price or with S ≥ 1 − min_margin. -/
theorem intra_arb_evaluate_spec (s : IntraArbStrategy) (ctx : StrategyContext) :
    s.evaluate ctx =
      s.markets.flatMap (fun m => intraMarketSignalsSpec s ctx m.1 m.2) := by
  unfold IntraArbStrategy.evaluate
  have h : (fun m : String × List String => s.evalMarket ctx m.1 m.2) =
      (fun m => intraMarketSignalsSpec s ctx m.1 m.2) :=
    funext fun m => evalMarket_eq_spec s ctx m.1 m.2
  rw [h]

/-- Display impl for Side (src/domain/mod.rs lines 10-17): uppercase names. -/
def Side.displayString : Side → String
  | Side.Buy => "BUY"
  | Side.Sell => "SELL"

/-- Textual name produced by Rust derive(Debug) formatting (the "{:?}" format
used by Database::insert_order and update_order_status) for OrderStatus. -/
def OrderStatus.debugString : OrderStatus → String
  | OrderStatus.Pending => "Pending"
  | OrderStatus.Open => "Open"
  | OrderStatus.Filled => "Filled"
  | OrderStatus.Cancelled => "Cancelled"
  | OrderStatus.Failed => "Failed"

/-- Textual name produced by Rust derive(Debug) formatting for OrderType. -/
def OrderType.debugString : OrderType → String
  | OrderType.GTC => "GTC"
  | OrderType.GTD => "GTD"
  | OrderType.FOK => "FOK"

/-- Textual orders row as stored/read by sqlx (src/adapters/database.rs
lines 312-323). -/
structure OrderRow where
  id : String
  market_id : String
  side : String
  token_id : String
  price : ℚ
  size : ℚ
  order_type : String
  status : String
  created_at : String
deriving DecidableEq, Repr

/-- Textual trades row as stored/read by sqlx (lines 258-268). -/
structure TradeRow where
  id : String
  order_id : String
  market_id : String
  side : String
  price : ℚ
  size : ℚ
  fee : ℚ
  timestamp : String
deriving DecidableEq, Repr

/-- Textual positions row as stored/read by sqlx (lines 287-296). -/
structure PositionRow where
  market_id : String
  token_id : String
  side : String
  size : ℚ
  avg_price : ℚ
  current_price : ℚ
  pnl : ℚ
deriving DecidableEq, Repr

/-- Row written by Database::insert_order (src/adapters/database.rs lines
159-179): side via the Display impl, order_type and status via Debug
formatting, created_at as RFC3339 text. -/
def insert_order_row (o : Order) : OrderRow :=
  { id := o.id, market_id := o.market_id, side := o.side.displayString,
    token_id := o.token_id, price := o.price, size := o.size,
    order_type := o.order_type.debugString, status := o.status.debugString,
    created_at := o.created_at }

/-- Status string written by Database::update_order_status (lines 181-189):
Debug formatting. -/
def update_order_status_stored (st : OrderStatus) : String :=
  st.debugString

/-- Row written by Database::insert_trade (lines 83-100): side via Display. -/
def insert_trade_row (t : Trade) : TradeRow :=
  { id := t.id, order_id := t.order_id, market_id := t.market_id,
    side := t.side.displayString, price := t.price, size := t.size,
    fee := t.fee, timestamp := t.timestamp }

/-- Counterexample to C8 as stated: an order in status Pending is stored with
status string "Pending", which is not the uppercase name "PENDING". -/
theorem stored_status_not_uppercase :
    (insert_order_row
      { id := "o1", market_id := "m", side := Side.Buy, token_id := "t",
        price := 1/2, size := 25, order_type := OrderType.GTC,
        status := OrderStatus.Pending, created_at := "ts" }).status
      = "Pending" ∧
    ("Pending" : String) ≠ "PENDING" :=
  ⟨rfl, by decide⟩

/-- C8 amended: the persistence layer writes side via the Display impl
("BUY"/"SELL", uppercase) in both orders and trades rows, while order_type
and status are written via Debug formatting — the plain variant names, which
for order_type happen to be uppercase ("GTC"/"GTD"/"FOK") but for status are
capitalized, not uppercased ("Pending"/"Open"/"Filled"/"Cancelled"/"Failed");
update_order_status writes the same Debug name. -/
theorem stored_enum_strings :
    (∀ o : Order, (insert_order_row o).side = o.side.displayString ∧
      (insert_order_row o).order_type = o.order_type.debugString ∧
      (insert_order_row o).status = o.status.debugString) ∧
    (∀ t : Trade, (insert_trade_row t).side = t.side.displayString) ∧
    (∀ st : OrderStatus, update_order_status_stored st = st.debugString) ∧
    (Side.displayString Side.Buy = "BUY" ∧
     Side.displayString Side.Sell = "SELL") ∧
    (OrderType.debugString OrderType.GTC = "GTC" ∧
     OrderType.debugString OrderType.GTD = "GTD" ∧
     OrderType.debugString OrderType.FOK = "FOK") ∧
    (OrderStatus.debugString OrderStatus.Pending = "Pending" ∧
     OrderStatus.debugString OrderStatus.Open = "Open" ∧
     OrderStatus.debugString OrderStatus.Filled = "Filled" ∧
     OrderStatus.debugString OrderStatus.Cancelled = "Cancelled" ∧
     OrderStatus.debugString OrderStatus.Failed = "Failed") :=
  ⟨fun _ => ⟨rfl, rfl, rfl⟩, fun _ => rfl, fun _ => rfl,
   ⟨rfl, rfl⟩, ⟨rfl, rfl, rfl⟩, ⟨rfl, rfl, rfl, rfl, rfl⟩⟩

/-- From<TradeRow> for Trade (src/adapters/database.rs lines 270-285): a side
string other than exactly "BUY" decodes as Sell; the conversion is total. -/
def tradeFromRow (r : TradeRow) : Trade :=
  { id := r.id, order_id := r.order_id, market_id := r.market_id,
    side := if r.side = "BUY" then Side.Buy else Side.Sell,
    price := r.price, size := r.size, fee := r.fee,
    timestamp := r.timestamp }

/-- From<PositionRow> for Position (lines 298-310). -/
def positionFromRow (r : PositionRow) : Position :=
  { market_id := r.market_id, token_id := r.token_id,
    side := if r.side = "BUY" then Side.Buy else Side.Sell,
    size := r.size, avg_price := r.avg_price,
    current_price := r.current_price, pnl := r.pnl }

/-- From<OrderRow> for Order (lines 325-352): unknown order_type defaults to
GTC and unknown status to Pending; side other than "BUY" decodes as Sell. -/
def orderFromRow (r : OrderRow) : Order :=
  { id := r.id, market_id := r.market_id,
    side := if r.side = "BUY" then Side.Buy else Side.Sell,
    token_id := r.token_id, price := r.price, size := r.size,
    order_type :=
      if r.order_type = "GTD" then OrderType.GTD
      else if r.order_type = "FOK" then OrderType.FOK
      else OrderType.GTC,
    status :=
      if r.status = "Open" then OrderStatus.Open
      else if r.status = "Filled" then OrderStatus.Filled
      else if r.status = "Cancelled" then OrderStatus.Cancelled
      else if r.status = "Failed" then OrderStatus.Failed
      else OrderStatus.Pending,
    created_at := r.created_at }

/-- C10: the readback conversions are total (never an error) and decode any
side string that is not exactly "BUY" — corrupted values included — as Sell. -/
theorem side_decode_defaults_sell (tr : TradeRow) (pr : PositionRow)
    (orr : OrderRow) (ht : tr.side ≠ "BUY") (hp : pr.side ≠ "BUY")
    (ho : orr.side ≠ "BUY") :
    (tradeFromRow tr).side = Side.Sell ∧
    (positionFromRow pr).side = Side.Sell ∧
    (orderFromRow orr).side = Side.Sell := by
  refine ⟨?_, ?_, ?_⟩ <;>
    simp [tradeFromRow, positionFromRow, orderFromRow, ht, hp, ho]

/-- Witness for C10 at rows carrying the unknown side string "HOLD". -/
theorem side_decode_defaults_sell_witness :
    ("HOLD" : String) ≠ "BUY" ∧
    (tradeFromRow ⟨"t1", "o1", "m", "HOLD", 1/2, 25, 0, "ts"⟩).side = Side.Sell ∧
    (positionFromRow ⟨"m", "tok", "HOLD", 3, 1/2, 1/2, 0⟩).side = Side.Sell ∧
    (orderFromRow ⟨"o1", "m", "HOLD", "tok", 1/2, 25, "GTC", "Open", "ts"⟩).side
      = Side.Sell := by
  have h := side_decode_defaults_sell
    ⟨"t1", "o1", "m", "HOLD", 1/2, 25, 0, "ts"⟩
    ⟨"m", "tok", "HOLD", 3, 1/2, 1/2, 0⟩
    ⟨"o1", "m", "HOLD", "tok", 1/2, 25, "GTC", "Open", "ts"⟩
    (by decide) (by decide) (by decide)
  exact ⟨by decide, h.1, h.2.1, h.2.2⟩

/-- REST fallback polling loop of the spot adapter
(src/adapters/binance.rs lines 114-150), abstracted over the per-tick
outcome: a tick is true when some endpoint-and-symbol combination returned a
successful price. The counter increments on a failed tick and the loop
returns an error once the counter exceeds 30; a successful tick resets it.
The Except.ok value reports the counter when the tick trace runs out. -/
def rest_poll_aux : Nat → List Bool → Except Unit Nat
  | failures, [] => Except.ok failures
  | failures, tick :: rest =>
    if tick then rest_poll_aux 0 rest
    else if failures + 1 > 30 then Except.error ()
    else rest_poll_aux (failures + 1) rest

/-- Helper: a long enough run of failed ticks errors out. -/
theorem rest_poll_aux_fail_run (rest : List Bool) :
    ∀ (n f : Nat), 31 ≤ f + n → 1 ≤ n →
      rest_poll_aux f (List.replicate n false ++ rest) = Except.error () := by
  intro n
  induction n with
  | zero => intro f hsum hpos; omega
  | succ n ih =>
    intro f hsum _
    rw [List.replicate_succ, List.cons_append]
    by_cases hf : f + 1 > 30
    · simp [rest_poll_aux, hf]
    · simp only [rest_poll_aux, Bool.false_eq_true, if_false, hf]
      exact ih (f + 1) (by omega) (by omega)

/-- Counterexample to C9 as stated: after exactly 30 consecutive failed ticks
from a fresh counter the loop has not returned an error (the counter sits at
30; the error fires only when it exceeds 30). -/
theorem rest_poll_30_failures_no_error :
    rest_poll_aux 0 (List.replicate 30 false) = Except.ok 30 := by
  rfl

/-- Connection actions visible in the run() loop of the spot feed adapter:
a WebSocket connection attempt, or entering the REST fallback with the given
per-tick outcomes. -/
inductive FeedAction where
  | wsAttempt
  | restPoll (ticks : List Bool)
deriving DecidableEq, Repr

/-- Oracle for one iteration of run(): whether try_websocket returned Ok
(some endpoint connected, session ran until disconnect) and, if it Err-ed,
the per-tick outcomes driving the REST fallback. -/
structure RunIteration where
  ws : Bool
  restTicks : List Bool
deriving DecidableEq, Repr

/-- Outer loop BinanceWsFeed::run (src/adapters/binance.rs lines 41-63),
driven by a finite script of iteration oracles (the Rust loop is endless;
a finite script observes a prefix of it). Each iteration first attempts the
WebSocket; on failure it degrades to the REST polling loop; backoff_ms is
reset to 1000 on the Ok arms (the rest_poll_loop Ok arm is dead code in the
source, mirrored for fidelity: our finite tick script can end), kept on the
REST error arm, then doubled and capped at 30000 after the sleep; the next
iteration begins again with a WebSocket attempt. -/
def run_trace : Nat → List RunIteration → List FeedAction
  | _, [] => []
  | backoff_ms, it :: its =>
    if it.ws then
      FeedAction.wsAttempt :: run_trace (min (1000 * 2) 30000) its
    else
      match rest_poll_aux 0 it.restTicks with
      | Except.ok _ =>
        FeedAction.wsAttempt :: FeedAction.restPoll it.restTicks ::
          run_trace (min (1000 * 2) 30000) its
      | Except.error _ =>
        FeedAction.wsAttempt :: FeedAction.restPoll it.restTicks ::
          run_trace (min (backoff_ms * 2) 30000) its

/-- C9 amended: 31 consecutive failed ticks (from a fresh or just-reset
counter) make the REST polling loop return an error regardless of later
ticks — after which the outer run() loop reconnects the WebSocket: in the
trace of run(), the connection action following a REST poll that erred is a
WebSocket attempt — and any successful tick resets the consecutive-failure
counter to 0. -/
theorem rest_poll_spec :
    (∀ rest : List Bool,
      rest_poll_aux 0 (List.replicate 31 false ++ rest) = Except.error ()) ∧
    (∀ (failures : Nat) (rest : List Bool),
      rest_poll_aux failures (true :: rest) = rest_poll_aux 0 rest) ∧
    (∀ (backoff_ms : Nat) (it next : RunIteration) (its : List RunIteration),
      it.ws = false →
      rest_poll_aux 0 it.restTicks = Except.error () →
      ∃ tail, run_trace backoff_ms (it :: next :: its) =
        FeedAction.wsAttempt :: FeedAction.restPoll it.restTicks ::
          FeedAction.wsAttempt :: tail) := by
  refine ⟨?_, ?_, ?_⟩
  · intro rest
    exact rest_poll_aux_fail_run rest 31 0 (by omega) (by omega)
  · intro failures rest
    simp [rest_poll_aux]
  · intro backoff_ms it next its hws hrest
    have h1 : run_trace backoff_ms (it :: next :: its) =
        FeedAction.wsAttempt :: FeedAction.restPoll it.restTicks ::
          run_trace (min (backoff_ms * 2) 30000) (next :: its) := by
      simp [run_trace, hws, hrest]
    have h2 : ∃ tail,
        run_trace (min (backoff_ms * 2) 30000) (next :: its) =
          FeedAction.wsAttempt :: tail := by
      by_cases hnext : next.ws = true
      · refine ⟨run_trace (min (1000 * 2) 30000) its, ?_⟩
        simp [run_trace, hnext]
      · rw [Bool.not_eq_true] at hnext
        cases hr : rest_poll_aux 0 next.restTicks with
        | ok n =>
          refine ⟨FeedAction.restPoll next.restTicks ::
            run_trace (min (1000 * 2) 30000) its, ?_⟩
          simp [run_trace, hnext, hr]
        | error e =>
          refine ⟨FeedAction.restPoll next.restTicks ::
            run_trace (min (min (backoff_ms * 2) 30000 * 2) 30000) its, ?_⟩
          simp [run_trace, hnext, hr]
    obtain ⟨tail, htail⟩ := h2
    exact ⟨tail, by rw [h1, htail]⟩

/-- Witness for C9 at a concrete run script: a first iteration whose WS
attempt fails and whose REST fallback fails 31 consecutive ticks, followed
by one more iteration — the trace shows the WS reconnect right after the
failed REST poll. -/
theorem rest_poll_spec_witness :
    (RunIteration.mk false (List.replicate 31 false)).ws = false ∧
    rest_poll_aux 0 (RunIteration.mk false (List.replicate 31 false)).restTicks
      = Except.error () ∧
    ∃ tail, run_trace 1000
        [RunIteration.mk false (List.replicate 31 false),
         RunIteration.mk true []] =
      FeedAction.wsAttempt :: FeedAction.restPoll (List.replicate 31 false) ::
        FeedAction.wsAttempt :: tail :=
  ⟨rfl, rfl,
    rest_poll_spec.2.2 1000 (RunIteration.mk false (List.replicate 31 false))
      (RunIteration.mk true []) [] rfl rfl⟩

end PolymarketBot
